import Mathlib

/-!
Verification of the query-safety / introspection core of the
`pro-data-analysis` repository (scripts/db_connector.py,
scripts/run_query_safe.py, scripts/explain_query.py,
scripts/find_relationships.py).

SQL text is modelled as `List Char` (called `Text` below).  Python string
operations (strip, rstrip, upper, split, the regular expressions used by the
source) are embedded as executable Lean functions over `Text`.  Character
classes follow Python's definitions restricted to the ASCII range (the only
range the source's keywords and markers live in).
-/

abbrev Text := List Char

/-- Shorthand turning a Lean string literal into the `Text` representation. -/
def str (s : String) : Text := s.data

/-- A single-quote character (ASCII 39), used when embedding SQL literals. -/
def sqChar : Char := Char.ofNat 39

/-- Python whitespace class (space, tab, newline, carriage return,
vertical tab, form feed), as used by `str.strip`, `str.split` and `\s`. -/
def isWs (c : Char) : Bool :=
  c = ' ' || c = '\t' || c = '\n' || c = '\r' || c = Char.ofNat 11 || c = Char.ofNat 12

/-- Word character for the regex `\b` boundary: letters, digits, underscore. -/
def isWordChar (c : Char) : Bool := c.isAlphanum || c = '_'

/-- Python `str.upper` (ASCII). -/
def toUpperT (s : Text) : Text := s.map Char.toUpper

/-- Python `str.lower` (ASCII). -/
def toLowerT (s : Text) : Text := s.map Char.toLower

/-- Drop leading characters satisfying `p` (used for `lstrip`). -/
def lstripP (p : Char → Bool) (s : Text) : Text := s.dropWhile p

/-- Drop trailing characters satisfying `p` (used for `rstrip`). -/
def rstripP (p : Char → Bool) (s : Text) : Text := (s.reverse.dropWhile p).reverse

/-- Python `str.strip()` (both ends, whitespace). -/
def stripT (s : Text) : Text := rstripP isWs (lstripP isWs s)

/-- Does `s` start with `p`?  (Python `str.startswith`.) -/
def startsWithText (p s : Text) : Bool :=
  match p, s with
  | [], _ => true
  | _ :: _, [] => false
  | a :: ps, b :: ss => a = b && startsWithText ps ss

/-- Does `s` end with `p`?  (Python `str.endswith`.) -/
def endsWithText (p s : Text) : Bool := startsWithText p.reverse s.reverse

/-- Substring containment (Python `in` on strings). -/
def containsText (n : Text) : Text → Bool
  | [] => n.isEmpty
  | c :: rest => startsWithText n (c :: rest) || containsText n rest

/-- Boolean list membership for `Text` elements (Python `in` on a tuple/set). -/
def memText (x : Text) : List Text → Bool
  | [] => false
  | y :: ys => x = y || memText x ys

/-- Python `str.split()` with no argument: split on whitespace runs,
discarding empty pieces.  Fueled by the input length (each step consumes at
least one character, so the fuel never runs out on the remaining text). -/
def splitWsAux : Nat → Text → List Text
  | 0, _ => []
  | _ + 1, [] => []
  | fuel + 1, c :: rest =>
    if isWs c then splitWsAux fuel rest
    else
      (c :: rest.takeWhile (fun d => !isWs d)) ::
        splitWsAux fuel (rest.dropWhile (fun d => !isWs d))

def splitWsT (s : Text) : List Text := splitWsAux s.length s

/-- Decimal digits of a natural number, as characters (Python `str(n)`). -/
def natTextAux : Nat → Nat → Text
  | 0, _ => []
  | fuel + 1, n =>
    if n < 10 then [Char.ofNat (48 + n)]
    else natTextAux fuel (n / 10) ++ [Char.ofNat (48 + n % 10)]

def natText (n : Nat) : Text := natTextAux (n + 1) n

/-- Digits of a numeral string back to a natural number (Python `int(s)`). -/
def textNat (s : Text) : Nat :=
  s.foldl (fun acc c => acc * 10 + (c.toNat - 48)) 0

/-- Group a reversed digit string in threes with commas; helper for the
Python format spec `{n:,}`. -/
def groupRev : Text → Text
  | [] => []
  | [a] => [a]
  | [a, b] => [a, b]
  | [a, b, c] => [a, b, c]
  | a :: b :: c :: d :: rest => a :: b :: c :: ',' :: groupRev (d :: rest)

/-- Python `f"{n:,}"`: decimal with thousands separators. -/
def natCommaText (n : Nat) : Text := (groupRev (natText n).reverse).reverse

/-!
## Statement Classifier (`db_connector.is_select_only`)

The source first strips line comments (`re.sub(r'--[^\n]*', '', sql)`), then
block comments (`re.sub(r'/\*.*?\*/', '', cleaned, flags=re.DOTALL)`), strips
surrounding whitespace and uppercases, and finally checks the first
whitespace-delimited token and a word-boundary search for each blocked
keyword.
-/

/-- Strip `--`-to-end-of-line comments.  The mode flag is true while inside a
comment; the terminating newline is kept, matching the regex `--[^\n]*`. -/
def stripLineCommentsAux : Bool → Text → Text
  | _, [] => []
  | true, c :: rest =>
    if c = '\n' then c :: stripLineCommentsAux false rest
    else stripLineCommentsAux true rest
  | false, '-' :: '-' :: rest => stripLineCommentsAux true rest
  | false, c :: rest => c :: stripLineCommentsAux false rest

def stripLineComments (s : Text) : Text := stripLineCommentsAux false s

/-- Scan for the closing marker of a block comment; returns the remainder
after the first closing marker, or none when the comment is unterminated. -/
def findBlockClose : Text → Option Text
  | [] => none
  | '*' :: '/' :: rest => some rest
  | _ :: rest => findBlockClose rest

/-- Strip non-greedy block comments (regex with DOTALL): each opening marker
is removed together with everything up to the nearest closing marker; an
unterminated opening marker is left as-is (the regex finds no match there,
and no later match can start past it).  Fueled by the input length, which
bounds the number of scanning steps. -/
def stripBlockCommentsAux : Nat → Text → Text
  | 0, s => s
  | _ + 1, [] => []
  | fuel + 1, '/' :: '*' :: rest =>
    match findBlockClose rest with
    | some rest2 => stripBlockCommentsAux fuel rest2
    | none => '/' :: '*' :: rest
  | fuel + 1, c :: rest => c :: stripBlockCommentsAux fuel rest

def stripBlockComments (s : Text) : Text := stripBlockCommentsAux s.length s

/-- The `cleaned` value of `is_select_only`: comments stripped, surrounding
whitespace stripped, uppercased. -/
def cleanSqlText (s : Text) : Text :=
  toUpperT (stripT (stripBlockComments (stripLineComments s)))

def blockedKeywords : List Text :=
  [str "INSERT", str "UPDATE", str "DELETE", str "DROP", str "ALTER",
   str "CREATE", str "TRUNCATE", str "MERGE", str "GRANT", str "REVOKE",
   str "EXEC", str "EXECUTE", str "CALL", str "BEGIN", str "DECLARE"]

def acceptedKeywords : List Text := [str "SELECT", str "WITH", str "EXPLAIN"]

/-- First whitespace-delimited token (`cleaned.split()[0]`, or the empty
string when there is none). -/
def firstWordT (s : Text) : Text := (splitWsT s).headD []

/-- Does `kw` occur in `s` delimited by word boundaries on both sides?
This models `re.search(rf'\b kw \b', s)` (without the spaces): the previous
character, tracked in the accumulator, must not be a word character, and
neither may the character following the occurrence. -/
def occursAsWordAux (kw : Text) : Option Char → Text → Bool
  | _, [] => false
  | prev, c :: rest =>
    (match prev with
     | none => true
     | some p => !isWordChar p) &&
      startsWithText kw (c :: rest) &&
      (match (c :: rest).drop kw.length with
       | [] => true
       | d :: _ => !isWordChar d)
    || occursAsWordAux kw (some c) rest

def occursAsWord (kw s : Text) : Bool := occursAsWordAux kw none s

/-- `db_connector.is_select_only`. -/
def isSelectOnly (sql : Text) : Bool :=
  let cleaned := cleanSqlText sql
  let firstWord := firstWordT cleaned
  if memText firstWord blockedKeywords then false
  else if blockedKeywords.any (fun kw => occursAsWord kw cleaned) then false
  else memText firstWord acceptedKeywords

/-- The classification rule exactly as the specification words it: the first
token (after comment stripping and uppercasing) is SELECT/WITH/EXPLAIN and no
blocked keyword occurs anywhere as a standalone word. -/
def readOnlyCharacterization (sql : Text) : Bool :=
  let cleaned := cleanSqlText sql
  memText (firstWordT cleaned) acceptedKeywords &&
    !(blockedKeywords.any (fun kw => occursAsWord kw cleaned))

theorem memText_iff (x : Text) (l : List Text) : memText x l = true ↔ x ∈ l := by
  induction l with
  | nil => simp [memText]
  | cons y ys ih => simp [memText, ih, List.mem_cons]

theorem blocked_accepted_disjoint (w : Text) (h : memText w blockedKeywords = true) :
    memText w acceptedKeywords = false := by
  rw [memText_iff] at h
  simp only [blockedKeywords, List.mem_cons, List.not_mem_nil, or_false] at h
  rcases h with rfl | rfl | rfl | rfl | rfl | rfl | rfl | rfl | rfl | rfl | rfl | rfl | rfl | rfl | rfl <;> rfl

/-- **C1.** `is_select_only` returns true iff, after stripping comments and
uppercasing, the first whitespace-delimited token is SELECT, WITH or EXPLAIN
and no blocked keyword occurs anywhere as a standalone word; every input
whose first token is blocked is rejected, and empty or whitespace-only input
is classified as not read-only.  (The embedded function is total, so the
classifier never fails.) -/
theorem c1_classifier_characterization :
    (∀ sql : Text, isSelectOnly sql = readOnlyCharacterization sql) ∧
    (∀ sql : Text,
      memText (firstWordT (cleanSqlText sql)) blockedKeywords = true →
      isSelectOnly sql = false) ∧
    isSelectOnly [] = false ∧ isSelectOnly (str "   ") = false := by
  refine ⟨?_, ?_, by decide, by decide⟩
  · intro sql
    unfold isSelectOnly readOnlyCharacterization
    cases hb : memText (firstWordT (cleanSqlText sql)) blockedKeywords with
    | true =>
      simp only [hb, if_true]
      rw [blocked_accepted_disjoint _ hb]
      simp
    | false =>
      simp only [hb, if_false, Bool.false_eq_true]
      cases ha : blockedKeywords.any (fun kw => occursAsWord kw (cleanSqlText sql)) <;> simp [ha]
  · intro sql h
    unfold isSelectOnly
    simp only [h, if_true]

/-- Witness for C1 at a concrete blocked-first-keyword input. -/
theorem c1_classifier_characterization_witness :
    memText (firstWordT (cleanSqlText (str "DROP TABLE x"))) blockedKeywords = true ∧
    isSelectOnly (str "DROP TABLE x") = false := by
  refine ⟨by decide, c1_classifier_characterization.2.1 _ (by decide)⟩

/-!
## Dialect Registry and Query Rewriter

`Dialect` is the four-valued dialect tag.  `wrapWithLimit` embeds
`_wrap_with_limit` (identical in run_query_safe.py and db_connector.py,
the former grouping the mysql/postgresql branches): Python
`sql.rstrip().rstrip(";")` removes trailing whitespace and then the whole
trailing run of semicolons, and the remaining text is spliced verbatim into
a dialect-specific bounding template.
-/

inductive Dialect
  | oracle
  | mysql
  | postgresql
  | sqlserver
deriving DecidableEq, Repr

/-- `sql.rstrip().rstrip(";")` from `_wrap_with_limit`. -/
def wrapClean (sql : Text) : Text :=
  rstripP (fun c => c = ';') (rstripP isWs sql)

/-- `_wrap_with_limit(sql, limit, db_type)`. -/
def wrapWithLimit (sql : Text) (limit : Nat) (dbType : Dialect) : Text :=
  let sqlClean := wrapClean sql
  match dbType with
  | .oracle =>
    str "SELECT * FROM (" ++ sqlClean ++ str ") WHERE ROWNUM <= " ++ natText limit
  | .mysql | .postgresql =>
    str "SELECT * FROM (" ++ sqlClean ++ str ") AS _limited LIMIT " ++ natText limit
  | .sqlserver =>
    str "SELECT TOP " ++ natText limit ++ str " * FROM (" ++ sqlClean ++ str ") AS _limited"

theorem startsWith_append_self (m b : Text) : startsWithText m (m ++ b) = true := by
  induction m with
  | nil => rfl
  | cons c m ih => simp [startsWithText, ih]

theorem containsText_cons (n : Text) (c : Char) (rest : Text) :
    containsText n (c :: rest) = (startsWithText n (c :: rest) || containsText n rest) := rfl

theorem containsText_append_mid (a m b : Text) : containsText m (a ++ m ++ b) = true := by
  induction a with
  | nil =>
    rw [List.nil_append]
    cases hmb : m ++ b with
    | nil =>
      rcases List.append_eq_nil.mp hmb with ⟨rfl, rfl⟩
      rfl
    | cons c rest =>
      rw [containsText_cons, ← hmb, startsWith_append_self, Bool.true_or]
  | cons c a ih =>
    rw [List.cons_append, List.cons_append, containsText_cons, ← List.cons_append,
      ← List.cons_append]
    rw [List.cons_append, ih, Bool.or_true]

theorem rstripP_decomp (p : Char → Bool) (s : Text) :
    ∃ t, s = rstripP p s ++ t ∧ ∀ c ∈ t, p c = true := by
  refine ⟨(s.reverse.takeWhile p).reverse, ?_, ?_⟩
  · have h := congrArg List.reverse (List.takeWhile_append_dropWhile (p := p) (l := s.reverse))
    rw [List.reverse_append, List.reverse_reverse] at h
    exact h.symm
  · intro c hc
    exact List.mem_takeWhile_imp (List.mem_reverse.mp hc)

theorem head?_dropWhile (p : Char → Bool) (l : Text) (c : Char)
    (h : (l.dropWhile p).head? = some c) : p c = false := by
  induction l with
  | nil => simp [List.dropWhile] at h
  | cons a l ih =>
    by_cases hp : p a = true
    · rw [List.dropWhile_cons_of_pos hp] at h
      exact ih h
    · rw [List.dropWhile_cons_of_neg hp] at h
      simp only [List.head?_cons, Option.some.injEq] at h
      subst h
      exact Bool.eq_false_iff.mpr hp

/-- **C3.** The bounded rewrite is exactly the dialect-specific wrapper
around the terminator-stripped original text, and on input
`"select * from t"` with cap 50 the Oracle output contains
`WHERE ROWNUM <= 50`, the MySQL/Postgres output contains `LIMIT 50`, and
the SQL Server output begins with `SELECT TOP 50`. -/
theorem c3_wrap_templates :
    (∀ (sql : Text) (cap : Nat),
      wrapWithLimit sql cap .oracle =
        str "SELECT * FROM (" ++ wrapClean sql ++ str ") WHERE ROWNUM <= " ++ natText cap ∧
      wrapWithLimit sql cap .mysql =
        str "SELECT * FROM (" ++ wrapClean sql ++ str ") AS _limited LIMIT " ++ natText cap ∧
      wrapWithLimit sql cap .postgresql =
        str "SELECT * FROM (" ++ wrapClean sql ++ str ") AS _limited LIMIT " ++ natText cap ∧
      wrapWithLimit sql cap .sqlserver =
        str "SELECT TOP " ++ natText cap ++ str " * FROM (" ++ wrapClean sql ++ str ") AS _limited") ∧
    containsText (str "WHERE ROWNUM <= 50") (wrapWithLimit (str "select * from t") 50 .oracle) = true ∧
    containsText (str "LIMIT 50") (wrapWithLimit (str "select * from t") 50 .mysql) = true ∧
    containsText (str "LIMIT 50") (wrapWithLimit (str "select * from t") 50 .postgresql) = true ∧
    startsWithText (str "SELECT TOP 50") (wrapWithLimit (str "select * from t") 50 .sqlserver) = true := by
  refine ⟨fun sql cap => ⟨rfl, rfl, rfl, rfl⟩, by decide, by decide, by decide, by decide⟩

/-- **C7 counterexample.** On `"select 1;;"` the rewrite strips BOTH
trailing semicolons, so the output is not the claimed
one-terminator-stripped form. -/
theorem c7_counterexample :
    wrapWithLimit (str "select 1;;") 50 .oracle =
      str "SELECT * FROM (select 1) WHERE ROWNUM <= 50" ∧
    wrapWithLimit (str "select 1;;") 50 .oracle ≠
      str "SELECT * FROM (select 1;) WHERE ROWNUM <= 50" := by
  exact ⟨by decide, by decide⟩

/-- **C7 (amended).** The bounding rewrite first removes trailing
whitespace, then the whole trailing run of semicolons (not just one), and
the remaining text appears verbatim inside the wrapped output for every
dialect. -/
theorem c7_strip_terminators (sql : Text) (cap : Nat) (d : Dialect) :
    (∃ k, rstripP isWs sql = wrapClean sql ++ List.replicate k ';') ∧
    (∀ c, (wrapClean sql).getLast? = some c → c ≠ ';') ∧
    containsText (wrapClean sql) (wrapWithLimit sql cap d) = true := by
  refine ⟨?_, ?_, ?_⟩
  · obtain ⟨t, ht, hall⟩ := rstripP_decomp (fun c => c = ';') (rstripP isWs sql)
    refine ⟨t.length, ?_⟩
    rw [← wrapClean] at ht
    rw [ht]
    congr 1
    rw [List.eq_replicate_iff]
    exact ⟨rfl, fun b hb => by simpa using hall b hb⟩
  · intro c hc
    have h1 : ((rstripP isWs sql).reverse.dropWhile (fun c => c = ';')).head? = some c := by
      have : (wrapClean sql).getLast? =
          ((rstripP isWs sql).reverse.dropWhile (fun c => c = ';')).head? := by
        simp [wrapClean, rstripP, List.getLast?_reverse]
      rw [this] at hc
      exact hc
    have := head?_dropWhile (fun c => c = ';') _ _ h1
    simpa using this
  · cases d
    case oracle =>
      show containsText (wrapClean sql)
        (str "SELECT * FROM (" ++ wrapClean sql ++ str ") WHERE ROWNUM <= " ++ natText cap) = true
      rw [List.append_assoc]
      exact containsText_append_mid _ _ _
    case mysql =>
      show containsText (wrapClean sql)
        (str "SELECT * FROM (" ++ wrapClean sql ++ str ") AS _limited LIMIT " ++ natText cap) = true
      rw [List.append_assoc]
      exact containsText_append_mid _ _ _
    case postgresql =>
      show containsText (wrapClean sql)
        (str "SELECT * FROM (" ++ wrapClean sql ++ str ") AS _limited LIMIT " ++ natText cap) = true
      rw [List.append_assoc]
      exact containsText_append_mid _ _ _
    case sqlserver =>
      show containsText (wrapClean sql)
        (str "SELECT TOP " ++ natText cap ++ str " * FROM (" ++ wrapClean sql ++
          str ") AS _limited") = true
      exact containsText_append_mid _ _ _

/-- Witness for C7 (amended) at the concrete input `"select 1; ;;"`. -/
theorem c7_strip_terminators_witness :
    (∃ k, rstripP isWs (str "select 1 ;;") =
        wrapClean (str "select 1 ;;") ++ List.replicate k ';') ∧
    (∀ c, (wrapClean (str "select 1 ;;")).getLast? = some c → c ≠ ';') ∧
    containsText (wrapClean (str "select 1 ;;"))
      (wrapWithLimit (str "select 1 ;;") 50 Dialect.mysql) = true :=
  c7_strip_terminators (str "select 1 ;;") 50 Dialect.mysql

/-!
## Plan Analyzer (`explain_query.py`)

Issue records carry a severity, a kind and a message, as the analyzer dicts
do.  The regex scanners used by the source (`re.findall`) are embedded as
left-to-right, non-overlapping scanners fueled by the input length; the fuel
never runs out because every step consumes at least one character.
-/

inductive Severity
  | OK
  | INFO
  | WARNING
  | CRITICAL
deriving DecidableEq, Repr

inductive IssueKind
  | FULL_TABLE_SCAN
  | CARTESIAN_PRODUCT
  | HASH_JOIN
  | HIGH_COST
  | FILESORT
  | TEMP_TABLE
  | NESTED_LOOP_HIGH_COST
  | NESTED_LOOPS
  | SORT_OPERATION
  | NO_ISSUES
deriving DecidableEq, Repr

structure Issue where
  severity : Severity
  kind : IssueKind
  message : Text
deriving DecidableEq, Repr

/-- `"\n".join(plan_lines)`. -/
def joinNl (planLines : List Text) : Text := List.intercalate (str "\n") planLines

/-- If no rule fired, emit exactly one OK/NO_ISSUES record (the trailing
`if not issues:` block shared by all four analyzers). -/
def withNoIssuesDefault (rules : List Issue) (msg : Text) : List Issue :=
  if rules.isEmpty then [⟨.OK, .NO_ISSUES, msg⟩] else rules

def noIssuesMsgLong : Text := str "Không phát hiện vấn đề rõ ràng trong execution plan."

def noIssuesMsgShort : Text := str "Không phát hiện vấn đề rõ ràng."

/-! ### Oracle analyzer (`_analyze_oracle_plan`) -/

def ftsPattern : Text := str "TABLE ACCESS FULL"

/-- `re.findall(r"TABLE ACCESS FULL\s*\|\s*(\S+)", full_text)`: at each
position try the literal, skip whitespace, require a pipe, skip whitespace,
capture a maximal nonempty run of non-whitespace; on failure resume one
character further, on success resume after the captured token. -/
def ftsScanAux : Nat → Text → List Text
  | 0, _ => []
  | _ + 1, [] => []
  | fuel + 1, c :: rest =>
    if startsWithText ftsPattern (c :: rest) then
      match ((c :: rest).drop ftsPattern.length).dropWhile isWs with
      | '|' :: r2 =>
        let r3 := r2.dropWhile isWs
        let tok := r3.takeWhile (fun d => !isWs d)
        if tok.isEmpty then ftsScanAux fuel rest
        else tok :: ftsScanAux fuel (r3.drop tok.length)
      | _ => ftsScanAux fuel rest
    else ftsScanAux fuel rest

def ftsScan (s : Text) : List Text := ftsScanAux s.length s

/-- `re.findall(r"\|\s*(\d+)\s*\|", full_text)`: on success scanning resumes
after the closing pipe (non-overlapping matches), on failure one character
past the opening pipe. -/
def costScanAux : Nat → Text → List Text
  | 0, _ => []
  | _ + 1, [] => []
  | fuel + 1, c :: rest =>
    if c = '|' then
      let r1 := rest.dropWhile isWs
      let ds := r1.takeWhile Char.isDigit
      if ds.isEmpty then costScanAux fuel rest
      else
        match (r1.drop ds.length).dropWhile isWs with
        | '|' :: r3 => ds :: costScanAux fuel r3
        | _ => costScanAux fuel rest
    else costScanAux fuel rest

def costScan (s : Text) : List Text := costScanAux s.length s

/-- `max(...)` over a list of naturals (the guard in the source ensures the
list is nonempty before `max` is taken). -/
def maxNatList (l : List Nat) : Nat := l.foldr max 0

def oracleFtsMsg (t : Text) : Text :=
  str "Full Table Scan trên bảng " ++ t ++ str ". Cân nhắc thêm index hoặc filter partition."

def oracleFtsIssues (fullText : Text) : List Issue :=
  if containsText ftsPattern fullText then
    (ftsScan fullText).map (fun t => ⟨.WARNING, .FULL_TABLE_SCAN, oracleFtsMsg t⟩)
  else []

def oracleCartIssues (fullText : Text) : List Issue :=
  if containsText (str "MERGE JOIN CARTESIAN") fullText then
    [⟨.CRITICAL, .CARTESIAN_PRODUCT, str "Cartesian product detected! Kiểm tra lại JOIN conditions."⟩]
  else []

def oracleHashIssues (fullText : Text) : List Issue :=
  if containsText (str "HASH JOIN") fullText then
    [⟨.INFO, .HASH_JOIN, str "Hash Join detected. OK cho bảng lớn, nhưng kiểm tra memory."⟩]
  else []

def oracleCostIssues (fullText : Text) : List Issue :=
  let costs := costScan fullText
  if costs.isEmpty then []
  else
    let maxCost := maxNatList (costs.map textNat)
    if 100000 < maxCost then
      [⟨.WARNING, .HIGH_COST,
        str "Cost cao (" ++ natCommaText maxCost ++ str "). Cân nhắc tối ưu hóa query."⟩]
    else []

def oracleRuleIssues (planLines : List Text) : List Issue :=
  let fullText := joinNl planLines
  oracleFtsIssues fullText ++ oracleCartIssues fullText ++
    oracleHashIssues fullText ++ oracleCostIssues fullText

def analyzeOraclePlan (planLines : List Text) : List Issue :=
  withNoIssuesDefault (oracleRuleIssues planLines) noIssuesMsgLong

/-! ### MySQL analyzer (`_analyze_mysql_plan`)

A classic-EXPLAIN row is modelled by the four dict entries the analyzer
reads (`type`, `table`, `rows`, `Extra`), each possibly absent.  The
`plan_json` argument of the source function is never read by it and is
omitted here. -/

structure MysqlRow where
  typ : Option Text
  table : Option Text
  rowsField : Option Text
  extra : Option Text
deriving DecidableEq, Repr

/-- Python f-string interpolation of a possibly-`None` value. -/
def pyOptText : Option Text → Text
  | none => str "None"
  | some t => t

/-- `r.get('rows', '?')` interpolated. -/
def pyOptTextQ : Option Text → Text
  | none => str "?"
  | some t => t

def mysqlRowIssues (r : MysqlRow) : List Issue :=
  (if r.typ = some (str "ALL") then
    [⟨.WARNING, .FULL_TABLE_SCAN,
      str "Full table scan trên " ++ pyOptText r.table ++ str " (" ++
        pyOptTextQ r.rowsField ++ str " rows). Cần index."⟩]
   else []) ++
  (match r.extra with
   | none => []
   | some e =>
     (if !e.isEmpty && containsText (str "Using filesort") e then
       [⟨.INFO, .FILESORT,
         str "Filesort trên " ++ pyOptText r.table ++ str ". Cân nhắc index cho ORDER BY."⟩]
      else []) ++
     (if !e.isEmpty && containsText (str "Using temporary") e then
       [⟨.INFO, .TEMP_TABLE,
         str "Temporary table trên " ++ pyOptText r.table ++ str ". Cân nhắc tối ưu GROUP BY."⟩]
      else []))

def mysqlRuleIssues (rows : List MysqlRow) : List Issue := rows.flatMap mysqlRowIssues

def analyzeMysqlPlan (rows : List MysqlRow) : List Issue :=
  withNoIssuesDefault (mysqlRuleIssues rows) noIssuesMsgShort

/-! ### PostgreSQL analyzer (`_analyze_pg_plan`) -/

def seqScanPattern : Text := str "Seq Scan on "

/-- `re.findall(r"Seq Scan on (\S+)", full_text)`. -/
def seqScanAux : Nat → Text → List Text
  | 0, _ => []
  | _ + 1, [] => []
  | fuel + 1, c :: rest =>
    if startsWithText seqScanPattern (c :: rest) then
      let r1 := (c :: rest).drop seqScanPattern.length
      let tok := r1.takeWhile (fun d => !isWs d)
      if tok.isEmpty then seqScanAux fuel rest
      else tok :: seqScanAux fuel (r1.drop tok.length)
    else seqScanAux fuel rest

def seqScan (s : Text) : List Text := seqScanAux s.length s

/-- Character class `[\d.]`. -/
def runChar (c : Char) : Bool := c.isDigit || c = '.'

/-- Latest split of a `[\d.]` run at a `..` with a nonempty remainder
(the greedy first `[\d.]+` of the pattern backtracks as little as
possible, so the capture follows the last `..` of the run). -/
def ddSearch : Text → Option Text
  | [] => none
  | [_] => none
  | c :: d :: rest =>
    match ddSearch (d :: rest) with
    | some t => some t
    | none => if c = '.' && d = '.' && !rest.isEmpty then some rest else none

/-- Scan forward (within the current line) for `cost=` followed by a
`[\d.]+\.\.([\d.]+)` tail; models the `.*?cost=...` part of the pattern,
including the retry at the next `cost=` when the numeric tail fails to
match.  Returns the capture and the remainder after the whole match. -/
def nlInner : Nat → Text → Option (Text × Text)
  | 0, _ => none
  | _ + 1, [] => none
  | fuel + 1, c :: rest =>
    if c = '\n' then none
    else if startsWithText (str "cost=") (c :: rest) then
      let r1 := (c :: rest).drop 5
      let run := r1.takeWhile runChar
      match run with
      | [] => nlInner fuel rest
      | _ :: rs =>
        match ddSearch rs with
        | some cap => some (cap, r1.drop run.length)
        | none => nlInner fuel rest
    else nlInner fuel rest

/-- `re.findall(r"Nested Loop.*?cost=[\d.]+\.\.([\d.]+)", full_text)`. -/
def nlScanAux : Nat → Text → List Text
  | 0, _ => []
  | _ + 1, [] => []
  | fuel + 1, c :: rest =>
    if startsWithText (str "Nested Loop") (c :: rest) then
      match nlInner (c :: rest).length ((c :: rest).drop 11) with
      | some (cap, after) => cap :: nlScanAux fuel after
      | none => nlScanAux fuel rest
    else nlScanAux fuel rest

def nlScan (s : Text) : List Text := nlScanAux s.length s

/-- Does Python `float()` accept this `[\d.]+` capture?  A string made of
digits and dots is accepted exactly when it contains at least one digit
and at most one dot (`"5."`, `".5"`, `"5"` parse; `"."`, `"5.."`,
`"2.3.4"` raise ValueError). -/
def pyFloatOk (cap : Text) : Bool :=
  cap.any Char.isDigit && decide (cap.count '.' ≤ 1)

/-- `float(c) > 100000` for a capture `float()` accepts, as an exact
IEEE-754 binary64 comparison.  100000 lies in the binade with ulp 2^-36
and its 53-bit significand (3125 * 2^41) is even, so a decimal value
ip + 0.fr rounds to a double greater than 100000 exactly when it exceeds
the round-to-nearest-even midpoint 100000 + 2^-37: ip > 100000, or
ip = 100000 and fr * 2^37 > 10^(number of fractional digits).  Values
whose float conversion overflows to infinity also satisfy ip > 100000. -/
def floatGt100000 (cap : Text) : Bool :=
  let ip := cap.takeWhile Char.isDigit
  let fr := cap.drop (ip.length + 1)
  100000 < textNat ip ||
    (textNat ip = 100000 && decide (10 ^ fr.length < textNat fr * 2 ^ 37))

def pgFtsIssues (fullText : Text) : List Issue :=
  if containsText (str "Seq Scan") fullText then
    (seqScan fullText).map (fun t =>
      ⟨.WARNING, .FULL_TABLE_SCAN, str "Sequential Scan trên " ++ t ++ str ". Cân nhắc thêm index."⟩)
  else []

def pgNlMsg (c : Text) : Text :=
  str "Nested Loop cost cao (" ++ c ++ str "). Kiểm tra join conditions."

/-- The nested-loop cost rule of `_analyze_pg_plan`.  The source loops
`for c in cost_match: if float(c) > 100000`, so a capture `float()`
rejects raises ValueError out of the analyzer; `none` models that raise
(it occurs exactly when some capture has no digit or several dots). -/
def pgNlIssuesRes (fullText : Text) : Option (List Issue) :=
  if containsText (str "Nested Loop") fullText then
    if (nlScan fullText).all pyFloatOk then
      some ((nlScan fullText).flatMap (fun c =>
        if floatGt100000 c then [⟨.WARNING, .NESTED_LOOP_HIGH_COST, pgNlMsg c⟩] else []))
    else none
  else some []

/-- The rule pass of `_analyze_pg_plan`; `none` propagates the `float()`
raise (the Seq-Scan records appended before it are discarded with the
whole call, as in the source). -/
def pgRuleIssuesRes (planLines : List Text) : Option (List Issue) :=
  let fullText := joinNl planLines
  match pgNlIssuesRes fullText with
  | none => none
  | some nl => some (pgFtsIssues fullText ++ nl)

/-- `_analyze_pg_plan`: the IssueList, or `none` when the cost comparison
raises and no list is returned. -/
def analyzePgPlanRes (planLines : List Text) : Option (List Issue) :=
  (pgRuleIssuesRes planLines).map (fun rules => withNoIssuesDefault rules noIssuesMsgShort)

/-! ### SQL Server analyzer (`_analyze_sqlserver_plan`) -/

def ssRuleIssues (planLines : List Text) : List Issue :=
  let fullText := joinNl planLines
  (if containsText (str "Table Scan") fullText ||
      containsText (str "Clustered Index Scan") fullText then
    [⟨.WARNING, .FULL_TABLE_SCAN,
      str "Table Scan hoặc Clustered Index Scan detected. Cân nhắc thêm index."⟩]
   else []) ++
  (if containsText (str "Nested Loops") fullText then
    [⟨.INFO, .NESTED_LOOPS,
      str "Nested Loops join detected. OK cho bảng nhỏ, kiểm tra nếu bảng lớn."⟩]
   else []) ++
  (if containsText (str "Hash Match") fullText then
    [⟨.INFO, .HASH_JOIN,
      str "Hash Match join detected. Bình thường cho bảng lớn, kiểm tra memory."⟩]
   else []) ++
  (if containsText (str "Sort") fullText then
    [⟨.INFO, .SORT_OPERATION, str "Sort operation detected. Cân nhắc index cho ORDER BY."⟩]
   else [])

def analyzeSqlserverPlan (planLines : List Text) : List Issue :=
  withNoIssuesDefault (ssRuleIssues planLines) noIssuesMsgLong

/-!
## C5: the IssueList invariant

Every rule-generated record carries a non-OK severity; the OK/NO_ISSUES
record appears exactly when no rule fired.
-/

theorem mem_ite_nil {α} {i : α} {b : Prop} [Decidable b] {l : List α}
    (h : i ∈ if b then l else []) : i ∈ l := by
  split at h
  · exact h
  · simp at h

theorem oracleRule_severity (planLines : List Text) :
    ∀ i ∈ oracleRuleIssues planLines, i.severity ≠ Severity.OK := by
  intro i hi
  simp only [oracleRuleIssues, List.mem_append] at hi
  rcases hi with ((hi | hi) | hi) | hi
  · simp only [oracleFtsIssues] at hi
    obtain ⟨t, _, rfl⟩ := List.mem_map.mp (mem_ite_nil hi)
    simp
  · simp only [oracleCartIssues] at hi
    rw [List.mem_singleton.mp (mem_ite_nil hi)]
    simp
  · simp only [oracleHashIssues] at hi
    rw [List.mem_singleton.mp (mem_ite_nil hi)]
    simp
  · simp only [oracleCostIssues] at hi
    split at hi
    · simp at hi
    · rw [List.mem_singleton.mp (mem_ite_nil hi)]
      simp

theorem mysqlRule_severity (rows : List MysqlRow) :
    ∀ i ∈ mysqlRuleIssues rows, i.severity ≠ Severity.OK := by
  intro i hi
  simp only [mysqlRuleIssues, List.mem_flatMap] at hi
  obtain ⟨r, _, hi⟩ := hi
  simp only [mysqlRowIssues, List.mem_append] at hi
  rcases hi with hi | hi
  · rw [List.mem_singleton.mp (mem_ite_nil hi)]
    simp
  · cases hx : r.extra with
    | none => rw [hx] at hi; simp at hi
    | some e =>
      rw [hx] at hi
      simp only [List.mem_append] at hi
      rcases hi with hi | hi <;>
        · rw [List.mem_singleton.mp (mem_ite_nil hi)]
          simp

theorem pgRule_severity (planLines : List Text) (rules : List Issue)
    (h : pgRuleIssuesRes planLines = some rules) :
    ∀ i ∈ rules, i.severity ≠ Severity.OK := by
  intro i hi
  simp only [pgRuleIssuesRes] at h
  cases hnl : pgNlIssuesRes (joinNl planLines) with
  | none =>
    rw [hnl] at h
    exact Option.noConfusion h
  | some nl =>
    rw [hnl] at h
    injection h with h2
    rw [← h2] at hi
    rcases List.mem_append.mp hi with hi | hi
    · simp only [pgFtsIssues] at hi
      obtain ⟨t, _, rfl⟩ := List.mem_map.mp (mem_ite_nil hi)
      simp
    · simp only [pgNlIssuesRes] at hnl
      split at hnl
      · split at hnl
        · injection hnl with h3
          rw [← h3] at hi
          obtain ⟨c, _, hc⟩ := List.mem_flatMap.mp hi
          rw [List.mem_singleton.mp (mem_ite_nil hc)]
          simp
        · exact Option.noConfusion hnl
      · injection hnl with h3
        rw [← h3] at hi
        simp at hi

theorem ssRule_severity (planLines : List Text) :
    ∀ i ∈ ssRuleIssues planLines, i.severity ≠ Severity.OK := by
  intro i hi
  simp only [ssRuleIssues, List.mem_append] at hi
  rcases hi with ((hi | hi) | hi) | hi <;>
    · rw [List.mem_singleton.mp (mem_ite_nil hi)]
      simp

theorem withNoIssuesDefault_spec (rules : List Issue) (msg : Text)
    (h : ∀ i ∈ rules, i.severity ≠ Severity.OK) :
    withNoIssuesDefault rules msg ≠ [] ∧
    (rules = [] → ∃ m, withNoIssuesDefault rules msg = [⟨.OK, .NO_ISSUES, m⟩]) ∧
    (rules ≠ [] → ∀ i ∈ withNoIssuesDefault rules msg, i.severity ≠ Severity.OK) := by
  by_cases he : rules = []
  · subst he
    exact ⟨by simp [withNoIssuesDefault], fun _ => ⟨msg, rfl⟩, fun hne => absurd rfl hne⟩
  · have hb : rules.isEmpty = false := by
      cases rules with
      | nil => exact absurd rfl he
      | cons a l => rfl
    have hw : withNoIssuesDefault rules msg = rules := by
      simp [withNoIssuesDefault, hb]
    refine ⟨by rw [hw]; exact he, fun h' => absurd h' he, fun _ => by rw [hw]; exact h⟩

/-- **C5 counterexample.** The PostgreSQL analyzer does not return an
IssueList for every plan input: on the plan line `"Nested Loop cost=1..."`
the cost regex captures `"."`, on which `float()` raises, so the analyzer
raises instead of returning a (non-empty) list. -/
theorem c5_counterexample :
    analyzePgPlanRes [str "Nested Loop cost=1..."] = none ∧
    nlScan (joinNl [str "Nested Loop cost=1..."]) = [str "."] ∧
    pyFloatOk (str ".") = false := by
  exact ⟨by decide, by decide, by decide⟩

/-- **C5 (amended).** For the Oracle, MySQL and SQL Server analyzers and
every plan input, and for the PostgreSQL analyzer whenever it returns a
list (every extracted nested-loop cost capture is accepted by `float()`),
the returned IssueList is non-empty; when no detection rule fires it is
exactly one record of severity OK and kind NO_ISSUES, and when any rule
fires no OK record appears.  On a degenerate cost capture the PostgreSQL
analyzer raises instead of returning a list. -/
theorem c5_issue_list_invariant (oPlan pPlan sPlan : List Text) (mRows : List MysqlRow) :
    (analyzeOraclePlan oPlan ≠ [] ∧
      (oracleRuleIssues oPlan = [] →
        ∃ m, analyzeOraclePlan oPlan = [⟨Severity.OK, IssueKind.NO_ISSUES, m⟩]) ∧
      (oracleRuleIssues oPlan ≠ [] →
        ∀ i ∈ analyzeOraclePlan oPlan, i.severity ≠ Severity.OK)) ∧
    (analyzeMysqlPlan mRows ≠ [] ∧
      (mysqlRuleIssues mRows = [] →
        ∃ m, analyzeMysqlPlan mRows = [⟨Severity.OK, IssueKind.NO_ISSUES, m⟩]) ∧
      (mysqlRuleIssues mRows ≠ [] →
        ∀ i ∈ analyzeMysqlPlan mRows, i.severity ≠ Severity.OK)) ∧
    (∀ rules, pgRuleIssuesRes pPlan = some rules →
      ∃ issues, analyzePgPlanRes pPlan = some issues ∧ issues ≠ [] ∧
        (rules = [] → ∃ m, issues = [⟨Severity.OK, IssueKind.NO_ISSUES, m⟩]) ∧
        (rules ≠ [] → ∀ i ∈ issues, i.severity ≠ Severity.OK)) ∧
    (analyzeSqlserverPlan sPlan ≠ [] ∧
      (ssRuleIssues sPlan = [] →
        ∃ m, analyzeSqlserverPlan sPlan = [⟨Severity.OK, IssueKind.NO_ISSUES, m⟩]) ∧
      (ssRuleIssues sPlan ≠ [] →
        ∀ i ∈ analyzeSqlserverPlan sPlan, i.severity ≠ Severity.OK)) := by
  refine ⟨withNoIssuesDefault_spec _ _ (oracleRule_severity oPlan),
    withNoIssuesDefault_spec _ _ (mysqlRule_severity mRows), ?_,
    withNoIssuesDefault_spec _ _ (ssRule_severity sPlan)⟩
  intro rules hr
  obtain ⟨hne, hok, hnook⟩ :=
    withNoIssuesDefault_spec rules noIssuesMsgShort (pgRule_severity pPlan rules hr)
  refine ⟨withNoIssuesDefault rules noIssuesMsgShort, ?_, hne, hok, hnook⟩
  simp [analyzePgPlanRes, hr]

/-- Witness for C5 (amended): empty plans produce the single OK record on
all four analyzers; a plan firing the SQL Server sort rule yields a list
without any OK record. -/
theorem c5_issue_list_invariant_witness :
    (∃ m, analyzeOraclePlan [] = [⟨Severity.OK, IssueKind.NO_ISSUES, m⟩]) ∧
    (∃ m, analyzeMysqlPlan [] = [⟨Severity.OK, IssueKind.NO_ISSUES, m⟩]) ∧
    (∃ issues, analyzePgPlanRes [] = some issues ∧ issues ≠ [] ∧
      (([] : List Issue) = [] →
        ∃ m, issues = [⟨Severity.OK, IssueKind.NO_ISSUES, m⟩]) ∧
      (([] : List Issue) ≠ [] → ∀ i ∈ issues, i.severity ≠ Severity.OK)) ∧
    (∃ m, analyzeSqlserverPlan [] = [⟨Severity.OK, IssueKind.NO_ISSUES, m⟩]) ∧
    (∀ i ∈ analyzeSqlserverPlan [str "Sort"], i.severity ≠ Severity.OK) := by
  have h1 := c5_issue_list_invariant [] [] [] []
  have h2 := c5_issue_list_invariant [] [] [str "Sort"] []
  exact ⟨h1.1.2.1 (by decide), h1.2.1.2.1 (by decide), h1.2.2.1 [] (by decide),
    h1.2.2.2.2.1 (by decide), h2.2.2.2.2.2 (by decide)⟩

/-!
## C9: Oracle FULL_TABLE_SCAN records

The source appends one WARNING per `re.findall` match, without removing
duplicate table names.
-/

theorem ftsScanAux_nil_of_not_contains (fuel : Nat) :
    ∀ s : Text, containsText ftsPattern s = false → ftsScanAux fuel s = [] := by
  induction fuel with
  | zero => intro s _; rfl
  | succ fuel ih =>
    intro s h
    cases s with
    | nil => rfl
    | cons c rest =>
      rw [containsText_cons] at h
      rcases Bool.or_eq_false_iff.mp h with ⟨h1, h2⟩
      simp only [ftsScanAux, h1, Bool.false_eq_true, if_false]
      exact ih rest h2

theorem ftsScan_nil_of_not_contains (s : Text) (h : containsText ftsPattern s = false) :
    ftsScan s = [] := ftsScanAux_nil_of_not_contains s.length s h

def isFtsKind (i : Issue) : Bool := decide (i.kind = IssueKind.FULL_TABLE_SCAN)

theorem countFts_map (l : List Text) :
    List.countP isFtsKind
      (l.map (fun t => (⟨.WARNING, .FULL_TABLE_SCAN, oracleFtsMsg t⟩ : Issue))) = l.length := by
  induction l with
  | nil => rfl
  | cons t l ih => simp [List.countP_cons, ih, isFtsKind]

theorem countFts_oracleFtsIssues (t : Text) :
    List.countP isFtsKind (oracleFtsIssues t) = (ftsScan t).length := by
  unfold oracleFtsIssues
  split
  · rw [countFts_map]
  · rw [ftsScan_nil_of_not_contains t (Bool.eq_false_iff.mpr (by assumption))]
    rfl

theorem countFts_oracleCartIssues (t : Text) :
    List.countP isFtsKind (oracleCartIssues t) = 0 := by
  unfold oracleCartIssues
  split <;> simp [List.countP_cons, isFtsKind]

theorem countFts_oracleHashIssues (t : Text) :
    List.countP isFtsKind (oracleHashIssues t) = 0 := by
  unfold oracleHashIssues
  split <;> simp [List.countP_cons, isFtsKind]

theorem countFts_oracleCostIssues (t : Text) :
    List.countP isFtsKind (oracleCostIssues t) = 0 := by
  simp only [oracleCostIssues]
  split
  · rfl
  · split <;> simp [List.countP_cons, isFtsKind]

/-- **C9 counterexample.** A plan scanning the same table twice yields two
FULL_TABLE_SCAN records for a single distinct extracted table name, so the
claimed one-record-per-distinct-table rule fails. -/
theorem c9_counterexample :
    List.countP isFtsKind
        (analyzeOraclePlan [str "TABLE ACCESS FULL | EMP |", str "TABLE ACCESS FULL | EMP |"]) = 2 ∧
    List.dedup
        (ftsScan (joinNl [str "TABLE ACCESS FULL | EMP |", str "TABLE ACCESS FULL | EMP |"])) =
      [str "EMP"] := by
  exact ⟨by decide, by decide⟩

/-- **C9 (amended).** The Oracle analyzer emits exactly one FULL_TABLE_SCAN
WARNING per extracted occurrence of a table name following a
`TABLE ACCESS FULL` marker (duplicates included); for the plan line
`"TABLE ACCESS FULL | EMPLOYEES |"` with no other rule-triggering markers
the IssueList is exactly one WARNING of kind FULL_TABLE_SCAN whose message
names EMPLOYEES, and no OK/NO_ISSUES record appears. -/
theorem c9_fts_per_occurrence :
    (∀ planLines : List Text,
      List.countP isFtsKind (analyzeOraclePlan planLines) =
        (ftsScan (joinNl planLines)).length) ∧
    analyzeOraclePlan [str "TABLE ACCESS FULL | EMPLOYEES |"] =
      [⟨Severity.WARNING, IssueKind.FULL_TABLE_SCAN, oracleFtsMsg (str "EMPLOYEES")⟩] ∧
    containsText (str "EMPLOYEES") (oracleFtsMsg (str "EMPLOYEES")) = true ∧
    (∀ i ∈ analyzeOraclePlan [str "TABLE ACCESS FULL | EMPLOYEES |"],
      i.severity ≠ Severity.OK ∧ i.kind ≠ IssueKind.NO_ISSUES) := by
  refine ⟨?_, by decide, by decide, by decide⟩
  intro planLines
  unfold analyzeOraclePlan withNoIssuesDefault
  by_cases he : oracleRuleIssues planLines = []
  · rw [he]
    have hfts : oracleFtsIssues (joinNl planLines) = [] := by
      have := he
      unfold oracleRuleIssues at this
      exact (List.append_eq_nil.mp
        ((List.append_eq_nil.mp ((List.append_eq_nil.mp this).1)).1)).1
    have hscan : ftsScan (joinNl planLines) = [] := by
      revert hfts
      unfold oracleFtsIssues
      split
      · intro hm
        exact List.map_eq_nil_iff.mp hm
      · intro _
        exact ftsScan_nil_of_not_contains _ (Bool.eq_false_iff.mpr (by assumption))
    rw [hscan]
    rfl
  · have hb : (oracleRuleIssues planLines).isEmpty = false := by
      cases hl : oracleRuleIssues planLines with
      | nil => exact absurd hl he
      | cons a l => rfl
    rw [hb]
    simp only [Bool.false_eq_true, if_false]
    unfold oracleRuleIssues
    rw [List.countP_append, List.countP_append, List.countP_append,
      countFts_oracleFtsIssues, countFts_oracleCartIssues,
      countFts_oracleHashIssues, countFts_oracleCostIssues]
    omega

/-!
## Safe Executor (`run_query_safe.run_query`) and explain orchestration
(`explain_query.explain_query`)

The database side is modelled by a `Cursor` oracle mapping an executed
statement to the rows `fetchall` returns and to the column names from
`cursor.description`.  Side effects are recorded as an ordered event trace:
opening the connection, and each executed statement.  Wall-clock timing is
not modelled (the elapsed-milliseconds field is fixed at 0), the dialect is
passed directly (resolution from configuration is `getDbType`, modelled
separately), and the freshly generated Oracle statement id is supplied as
an argument.
-/

inductive DbEvent
  | openConnection
  | execute (stmt : Text)
deriving DecidableEq, Repr

structure Cursor where
  rowsFor : Text → List (List Text)
  descFor : Text → List Text

inductive Err
  | notReadOnly
  | keyError
  | valueError
deriving DecidableEq, Repr

structure QueryResult where
  columns : List Text
  rows : List (List Text)
  rowCount : Nat
  executionTimeMs : Nat
  truncated : Bool
  rowLimit : Option Nat
  totalRows : Option Text
deriving DecidableEq, Repr

def mysqlTimeoutStmt (timeoutSeconds : Nat) : Text :=
  str "SET SESSION MAX_EXECUTION_TIME = " ++ natText (timeoutSeconds * 1000)

def pgTimeoutStmt (timeoutSeconds : Nat) : Text :=
  str "SET statement_timeout = " ++ [sqChar] ++ natText (timeoutSeconds * 1000) ++ [sqChar]

/-- The session-timeout statements issued before the main query (none for
Oracle and SQL Server). -/
def timeoutEvents (d : Dialect) (timeoutSeconds : Nat) : List DbEvent :=
  match d with
  | .mysql => [.execute (mysqlTimeoutStmt timeoutSeconds)]
  | .postgresql => [.execute (pgTimeoutStmt timeoutSeconds)]
  | .oracle | .sqlserver => []

/-- The COUNT(*) wrapper of `_count_query` (Oracle drops the alias,
SQL Server adds `AS`). -/
def countSql (sql : Text) (d : Dialect) : Text :=
  match d with
  | .oracle => str "SELECT COUNT(*) FROM (" ++ sql ++ str ")"
  | .sqlserver => str "SELECT COUNT(*) FROM (" ++ sql ++ str ") AS count_wrapper"
  | .mysql | .postgresql => str "SELECT COUNT(*) FROM (" ++ sql ++ str ") count_wrapper"

/-- `_count_query`: the fetched count cell (`fetchone()[0]`) is the first
cell of the first returned row. -/
def countQuery (cur : Cursor) (sql : Text) (d : Dialect) (timeoutSeconds : Nat) :
    QueryResult × List DbEvent :=
  let cSql := countSql sql d
  let count := ((cur.rowsFor cSql).headD []).headD []
  (⟨[str "COUNT"], [[count]], 1, 0, false, none, some count⟩,
   timeoutEvents d timeoutSeconds ++ [.execute cSql])

/-- `sql.strip().rstrip(";")` from the top of `run_query`. -/
def inputClean (s : Text) : Text := rstripP (fun c => c = ';') (stripT s)

/-- `run_query_safe.run_query`. -/
def runQuery (d : Dialect) (cur : Cursor) (sql : Text) (rowLimit : Nat)
    (timeoutSeconds : Nat) (countOnly : Bool) : Except Err QueryResult × List DbEvent :=
  let sql1 := inputClean sql
  if !isSelectOnly sql1 then (.error .notReadOnly, [])
  else if countOnly then
    let re := countQuery cur sql1 d timeoutSeconds
    (.ok re.1, DbEvent.openConnection :: re.2)
  else
    let wrapped := wrapWithLimit sql1 rowLimit d
    let rows := cur.rowsFor wrapped
    (.ok ⟨cur.descFor wrapped, rows, rows.length, 0,
          decide (rowLimit ≤ rows.length), some rowLimit, none⟩,
     DbEvent.openConnection :: (timeoutEvents d timeoutSeconds ++ [.execute wrapped]))

structure ExplainResult where
  dbType : Dialect
  planLines : List Text
  mysqlRows : List MysqlRow
  planJson : Option Text
  issues : List Issue
deriving Repr

def oracleExplainStmt (stmtId sql : Text) : Text :=
  str "EXPLAIN PLAN SET STATEMENT_ID = " ++ [sqChar] ++ stmtId ++ [sqChar] ++ str " FOR " ++ sql

/-- The DBMS_XPLAN read-back query (source triple-quoted literal with its
internal whitespace normalized). -/
def oracleXplanQuery (stmtId : Text) : Text :=
  str "SELECT PLAN_TABLE_OUTPUT FROM TABLE(DBMS_XPLAN.DISPLAY(" ++ [sqChar] ++
    str "PLAN_TABLE" ++ [sqChar] ++ str ", " ++ [sqChar] ++ stmtId ++ [sqChar] ++
    str ", " ++ [sqChar] ++ str "ALL" ++ [sqChar] ++ str "))"

def oracleDeleteStmt (stmtId : Text) : Text :=
  str "DELETE FROM PLAN_TABLE WHERE STATEMENT_ID = " ++ [sqChar] ++ stmtId ++ [sqChar]

/-- `_oracle_explain`.  The advisory plan-table cleanup is executed; its
try/except error swallowing has no counterpart here because the cursor
model is total. -/
def oracleExplain (cur : Cursor) (stmtId sql : Text) :
    Except Err ExplainResult × List DbEvent :=
  let q := oracleXplanQuery stmtId
  let planLines := (cur.rowsFor q).map (fun r => r.headD [])
  (.ok ⟨.oracle, planLines, [], none, analyzeOraclePlan planLines⟩,
   [.execute (oracleExplainStmt stmtId sql), .execute q, .execute (oracleDeleteStmt stmtId)])

/-- `dict(zip(columns, r)).get(k)`: later duplicate columns win. -/
def dictGet (cols : List Text) (row : List Text) (k : Text) : Option Text :=
  ((cols.zip row).reverse.find? (fun p => decide (p.1 = k))).map (fun p => p.2)

/-- `_mysql_explain`.  The JSON plan text is kept unparsed (the analyzer
never reads it); a missing first row maps to an absent JSON plan. -/
def mysqlExplain (cur : Cursor) (sql : Text) : Except Err ExplainResult × List DbEvent :=
  let q1 := str "EXPLAIN FORMAT=JSON " ++ sql
  let planJson := match (cur.rowsFor q1).head? with
    | some r => some (r.headD [])
    | none => none
  let q2 := str "EXPLAIN " ++ sql
  let cols := cur.descFor q2
  let rows := (cur.rowsFor q2).map (fun r =>
    (⟨dictGet cols r (str "type"), dictGet cols r (str "table"),
      dictGet cols r (str "rows"), dictGet cols r (str "Extra")⟩ : MysqlRow))
  (.ok ⟨.mysql, [], rows, planJson, analyzeMysqlPlan rows⟩, [.execute q1, .execute q2])

/-- `_pg_explain`.  When `_analyze_pg_plan` raises (degenerate cost
capture), the ValueError propagates out of the call after both EXPLAIN
statements were executed. -/
def pgExplain (cur : Cursor) (sql : Text) : Except Err ExplainResult × List DbEvent :=
  let q1 := str "EXPLAIN (FORMAT TEXT, COSTS true, VERBOSE true) " ++ sql
  let planLines := (cur.rowsFor q1).map (fun r => r.headD [])
  let q2 := str "EXPLAIN (FORMAT JSON, COSTS true) " ++ sql
  let planJson := ((cur.rowsFor q2).headD []).headD []
  match analyzePgPlanRes planLines with
  | none => (.error .valueError, [.execute q1, .execute q2])
  | some issues =>
    (.ok ⟨.postgresql, planLines, [], some planJson, issues⟩, [.execute q1, .execute q2])

/-- `_sqlserver_explain`: the show-plan mode is toggled off unconditionally
after reading the plan rows. -/
def ssExplain (cur : Cursor) (sql : Text) : Except Err ExplainResult × List DbEvent :=
  let planLines := (cur.rowsFor sql).map (fun r => r.headD [])
  (.ok ⟨.sqlserver, planLines, [], none, analyzeSqlserverPlan planLines⟩,
   [.execute (str "SET SHOWPLAN_TEXT ON"), .execute sql,
    .execute (str "SET SHOWPLAN_TEXT OFF")])

/-- `explain_query.explain_query`. -/
def explainQuery (d : Dialect) (cur : Cursor) (stmtId sql : Text) :
    Except Err ExplainResult × List DbEvent :=
  if !isSelectOnly sql then (.error .notReadOnly, [])
  else
    let re :=
      match d with
      | .oracle => oracleExplain cur stmtId sql
      | .mysql => mysqlExplain cur sql
      | .postgresql => pgExplain cur sql
      | .sqlserver => ssExplain cur sql
    (re.1, DbEvent.openConnection :: re.2)

/-- **C2.** When classification rejects the input, both the Safe Executor
and the explain operation fail with the NotReadOnly error and produce an
empty event trace: no connection is opened and no statement reaches the
database. -/
theorem c2_reject_before_db (sql : Text) (d : Dialect) (cur : Cursor) (stmtId : Text)
    (rowLimit timeoutSeconds : Nat) (countOnly : Bool)
    (h1 : isSelectOnly (inputClean sql) = false)
    (h2 : isSelectOnly sql = false) :
    runQuery d cur sql rowLimit timeoutSeconds countOnly =
      (.error .notReadOnly, ([] : List DbEvent)) ∧
    explainQuery d cur stmtId sql = (.error .notReadOnly, ([] : List DbEvent)) := by
  constructor
  · simp [runQuery, h1]
  · simp [explainQuery, h2]

def trivialCursor : Cursor := ⟨fun _ => [], fun _ => []⟩

/-- Witness for C2 at the spec's scenario input `"DELETE FROM t"`. -/
theorem c2_reject_before_db_witness :
    isSelectOnly (inputClean (str "DELETE FROM t")) = false ∧
    isSelectOnly (str "DELETE FROM t") = false ∧
    (runQuery .oracle trivialCursor (str "DELETE FROM t") 100 30 false =
        (.error .notReadOnly, ([] : List DbEvent)) ∧
      explainQuery .oracle trivialCursor (str "id1") (str "DELETE FROM t") =
        (.error .notReadOnly, ([] : List DbEvent))) :=
  ⟨by decide, by decide,
   c2_reject_before_db (str "DELETE FROM t") .oracle trivialCursor (str "id1")
     100 30 false (by decide) (by decide)⟩

/-- **C4.** On the non-count success path, when the engine honours the
bounded rewrite (at most `rowLimit` rows come back), the `truncated` flag
is true exactly when the fetched row count equals the row cap, and the
reported row count equals the length of the returned rows. -/
theorem c4_truncated_iff_at_cap (d : Dialect) (cur : Cursor) (sql : Text)
    (rowLimit timeoutSeconds : Nat)
    (h1 : isSelectOnly (inputClean sql) = true)
    (h2 : (cur.rowsFor (wrapWithLimit (inputClean sql) rowLimit d)).length ≤ rowLimit) :
    ∃ r evts, runQuery d cur sql rowLimit timeoutSeconds false = (.ok r, evts) ∧
      (r.truncated = true ↔ r.rowCount = rowLimit) ∧
      r.rowCount = r.rows.length := by
  have heq : runQuery d cur sql rowLimit timeoutSeconds false =
      (.ok ⟨cur.descFor (wrapWithLimit (inputClean sql) rowLimit d),
            cur.rowsFor (wrapWithLimit (inputClean sql) rowLimit d),
            (cur.rowsFor (wrapWithLimit (inputClean sql) rowLimit d)).length, 0,
            decide (rowLimit ≤ (cur.rowsFor (wrapWithLimit (inputClean sql) rowLimit d)).length),
            some rowLimit, none⟩,
       DbEvent.openConnection :: (timeoutEvents d timeoutSeconds ++
         [.execute (wrapWithLimit (inputClean sql) rowLimit d)])) := by
    simp [runQuery, h1]
  refine ⟨_, _, heq, ?_, rfl⟩
  simp only [decide_eq_true_eq]
  omega

/-- Witness for C4: a cursor returning no rows for the bounded query gives
an untruncated result with row count 0. -/
theorem c4_truncated_iff_at_cap_witness :
    isSelectOnly (inputClean (str "SELECT 1")) = true ∧
    (∃ r evts,
      runQuery .oracle trivialCursor (str "SELECT 1") 5 30 false = (.ok r, evts) ∧
        (r.truncated = true ↔ r.rowCount = 5) ∧
        r.rowCount = r.rows.length) :=
  ⟨by decide,
   c4_truncated_iff_at_cap .oracle trivialCursor (str "SELECT 1") 5 30
     (by decide) (by decide)⟩

/-!
## Relationship Resolver (`find_relationships.py`)

The catalog cursor is modelled as an oracle holding the result rows of each
catalog query the module issues: the two directed Oracle FK joins, the
column/table/PK-candidate lookups behind the Oracle naming-hint heuristic,
the two MySQL KEY_COLUMN_USAGE queries and the single PostgreSQL
information_schema query.  Row shapes follow the SELECT lists of the
corresponding statements.
-/

inductive Direction
  | OUTGOING
  | INCOMING
deriving DecidableEq, Repr

inductive Confidence
  | MEDIUM
  | HIGH
deriving DecidableEq, Repr

structure FkEdge where
  constraintName : Text
  direction : Direction
  fromSchema : Text
  fromTable : Text
  fromColumn : Text
  toSchema : Text
  toTable : Text
  toColumn : Text
deriving DecidableEq, Repr

/-- A naming-convention hint; the constant `"type": "NAMING_CONVENTION"`
tag of the source dict is implicit in the type. -/
structure NamingHint where
  fromTable : Text
  fromColumn : Text
  toSchema : Text
  toTable : Text
  toColumn : Text
  confidence : Confidence
deriving DecidableEq, Repr

structure OracleFkRow where
  constraintName : Text
  fkTable : Text
  fkColumn : Text
  pkTable : Text
  pkColumn : Text
  fkSchema : Text
  pkSchema : Text
deriving DecidableEq, Repr

structure MysqlFkOutRow where
  constraintName : Text
  tableName : Text
  columnName : Text
  refSchema : Text
  refTable : Text
  refColumn : Text
deriving DecidableEq, Repr

structure MysqlFkInRow where
  constraintName : Text
  tableSchema : Text
  tableName : Text
  columnName : Text
  refColumn : Text
deriving DecidableEq, Repr

structure PgFkRow where
  constraintName : Text
  fkSchema : Text
  fkTable : Text
  fkColumn : Text
  pkSchema : Text
  pkTable : Text
  pkColumn : Text
deriving DecidableEq, Repr

structure RelCursor where
  oracleFkOut : List OracleFkRow
  oracleFkIn : List OracleFkRow
  tabColumns : Text → List Text
  tablesMatching : Text → List (Text × Text)
  pkColsOf : Text → Text → Text → Text → List Text
  mysqlFkOut : List MysqlFkOutRow
  mysqlFkIn : List MysqlFkInRow
  pgFk : List PgFkRow

/-- `_oracle_find_fk`. -/
def oracleFindFk (cur : RelCursor) (_schema _tableName : Text) : List FkEdge :=
  cur.oracleFkOut.map (fun r =>
    ⟨r.constraintName, .OUTGOING, r.fkSchema, r.fkTable, r.fkColumn,
     r.pkSchema, r.pkTable, r.pkColumn⟩) ++
  cur.oracleFkIn.map (fun r =>
    ⟨r.constraintName, .INCOMING, r.fkSchema, r.fkTable, r.fkColumn,
     r.pkSchema, r.pkTable, r.pkColumn⟩)

def fkHintSuffixes : List Text :=
  [str "_ID", str "_CODE", str "_KEY", str "_NO", str "_NUM"]

/-- `suffix.lstrip("_")`. -/
def dropUnderscores (s : Text) : Text := s.dropWhile (fun c => c = '_')

/-- `_oracle_find_naming_hints`: collect (column, prefix, bare suffix)
patterns, then for every schema table matching the prefix check the three
candidate PK column names; a nonempty answer yields a MEDIUM hint whose
target column is the first answer row. -/
def oracleFindNamingHints (cur : RelCursor) (_schema tableName : Text) : List NamingHint :=
  let columns := cur.tabColumns tableName
  let fkPatterns := columns.flatMap (fun col =>
    fkHintSuffixes.flatMap (fun suf =>
      if endsWithText suf col then
        let pre := col.take (col.length - suf.length)
        if !pre.isEmpty && !decide (pre = tableName) then
          [(col, pre, dropUnderscores suf)]
        else []
      else []))
  fkPatterns.flatMap (fun pat =>
    (cur.tablesMatching pat.2.1).flatMap (fun m =>
      let pkCols := cur.pkColsOf m.1 pat.2.2 (m.1 ++ str "_" ++ pat.2.2) pat.1
      if pkCols.isEmpty then []
      else [⟨tableName, pat.1, m.2, m.1, pkCols.headD [], .MEDIUM⟩]))

/-- `_mysql_find_fk`. -/
def mysqlFindFk (cur : RelCursor) (schema tableName : Text) : List FkEdge :=
  cur.mysqlFkOut.map (fun r =>
    ⟨r.constraintName, .OUTGOING, schema, r.tableName, r.columnName,
     r.refSchema, r.refTable, r.refColumn⟩) ++
  cur.mysqlFkIn.map (fun r =>
    ⟨r.constraintName, .INCOMING, r.tableSchema, r.tableName, r.columnName,
     schema, tableName, r.refColumn⟩)

/-- `_mysql_find_naming_hints` (returns the empty list). -/
def mysqlFindNamingHints (_cur : RelCursor) (_schema _tableName : Text) : List NamingHint := []

/-- `_pg_find_fk`. -/
def pgFindFk (cur : RelCursor) (_schema tableName : Text) : List FkEdge :=
  cur.pgFk.map (fun r =>
    ⟨r.constraintName, if r.fkTable = tableName then .OUTGOING else .INCOMING,
     r.fkSchema, r.fkTable, r.fkColumn, r.pkSchema, r.pkTable, r.pkColumn⟩)

/-- `_pg_find_naming_hints` (returns the empty list). -/
def pgFindNamingHints (_cur : RelCursor) (_schema _tableName : Text) : List NamingHint := []

structure RelResult where
  schema : Text
  table : Text
  dbType : Dialect
  foreignKeys : List FkEdge
  namingHints : List NamingHint
deriving Repr

/-- `_FK_FUNCS`: the dispatch table has no `sqlserver` entry, so the lookup
for that dialect has no value (a Python `KeyError`). -/
def fkFuncs (d : Dialect) :
    Option ((RelCursor → Text → Text → List FkEdge) ×
            (RelCursor → Text → Text → List NamingHint)) :=
  match d with
  | .oracle => some (oracleFindFk, oracleFindNamingHints)
  | .mysql => some (mysqlFindFk, mysqlFindNamingHints)
  | .postgresql => some (pgFindFk, pgFindNamingHints)
  | .sqlserver => none

/-- `find_relationships`. -/
def findRelationships (d : Dialect) (cur : RelCursor) (schema tableName : Text) :
    Except Err RelResult :=
  match fkFuncs d with
  | none => .error .keyError
  | some fs =>
    .ok ⟨schema, tableName, d, fs.1 cur schema tableName, fs.2 cur schema tableName⟩

def emptyRelCursor : RelCursor :=
  ⟨[], [], fun _ => [], fun _ => [], fun _ _ _ _ => [], [], [], []⟩

/-- A cursor on which the Oracle naming-hint heuristic fires. -/
def hintRelCursor : RelCursor :=
  ⟨[], [], fun _ => [str "CUSTOMER_ID"], fun _ => [(str "CUSTOMER", str "S")],
   fun _ _ _ _ => [str "ID"], [], [], []⟩

/-- **C6 counterexample.** For the SQLSERVER dialect `find_relationships`
does not return normally: the dispatch-table lookup fails. -/
theorem c6_counterexample :
    findRelationships .sqlserver emptyRelCursor (str "S") (str "T") =
      Except.error Err.keyError := rfl

/-- **C6 (amended).** MYSQL and POSTGRESQL return normally with an empty
naming-hint sequence; SQLSERVER fails with the dispatch-lookup error before
producing a result; and whenever a returned result carries a non-empty hint
sequence the dialect is ORACLE. -/
theorem c6_non_oracle_hints (cur : RelCursor) (schema tableName : Text) :
    (∃ r, findRelationships .mysql cur schema tableName = .ok r ∧ r.namingHints = []) ∧
    (∃ r, findRelationships .postgresql cur schema tableName = .ok r ∧ r.namingHints = []) ∧
    findRelationships .sqlserver cur schema tableName = .error .keyError ∧
    (∀ d r, findRelationships d cur schema tableName = .ok r →
      r.namingHints ≠ [] → d = .oracle) := by
  refine ⟨⟨_, rfl, rfl⟩, ⟨_, rfl, rfl⟩, rfl, ?_⟩
  intro d r hok hne
  cases d with
  | oracle => rfl
  | mysql =>
    exfalso
    refine hne ?_
    have h' : Except.ok (⟨schema, tableName, Dialect.mysql,
        mysqlFindFk cur schema tableName,
        mysqlFindNamingHints cur schema tableName⟩ : RelResult) = Except.ok r := hok
    injection h' with h2
    rw [← h2]
    rfl
  | postgresql =>
    exfalso
    refine hne ?_
    have h' : Except.ok (⟨schema, tableName, Dialect.postgresql,
        pgFindFk cur schema tableName,
        pgFindNamingHints cur schema tableName⟩ : RelResult) = Except.ok r := hok
    injection h' with h2
    rw [← h2]
    rfl
  | sqlserver =>
    have h' : (Except.error Err.keyError : Except Err RelResult) = Except.ok r := hok
    exact Except.noConfusion h'

/-- Witness for C6 (amended): concrete cursors exercising the MYSQL
empty-hint path, the SQLSERVER failure and the ORACLE-only hint production. -/
theorem c6_non_oracle_hints_witness :
    (∃ r, findRelationships .mysql emptyRelCursor (str "S") (str "T") = .ok r ∧
      r.namingHints = []) ∧
    findRelationships .sqlserver emptyRelCursor (str "S") (str "T") =
      Except.error Err.keyError ∧
    Dialect.oracle = Dialect.oracle := by
  refine ⟨(c6_non_oracle_hints emptyRelCursor (str "S") (str "T")).1,
    (c6_non_oracle_hints emptyRelCursor (str "S") (str "T")).2.2.1,
    (c6_non_oracle_hints hintRelCursor (str "S") (str "T")).2.2.2 Dialect.oracle
      ⟨str "S", str "T", Dialect.oracle,
        oracleFindFk hintRelCursor (str "S") (str "T"),
        oracleFindNamingHints hintRelCursor (str "S") (str "T")⟩
      rfl (by decide)⟩

/-!
## C8: `_find_join_path` symmetry

The pure part of `_find_join_path` after the catalog fetch: given the two
tables' column lists, produce COMMON_COLUMN candidates for shared names and
NAMING_CONVENTION candidates in both directions.  A candidate's proposed
predicate `table1.col = table2.col` is kept structured (left/right table
and column); `renderJoin` rebuilds the f-string of the source.  Python
iterates the column sets (`set(...)`); set iteration order is unspecified,
modelled here as first-occurrence-deduplicated list order.
-/

inductive JoinKind
  | COMMON_COLUMN
  | NAMING_CONVENTION
deriving DecidableEq, Repr

structure JoinPath where
  kind : JoinKind
  leftTable : Text
  leftCol : Text
  rightTable : Text
  rightCol : Text
  confidence : Confidence
deriving DecidableEq, Repr

/-- The `"join"` field of the source dict. -/
def renderJoin (p : JoinPath) : Text :=
  p.leftTable ++ str "." ++ p.leftCol ++ str " = " ++ p.rightTable ++ str "." ++ p.rightCol

def highConfSuffixes : List Text := [str "_ID", str "_KEY", str "_CODE"]

def joinSuffixes : List Text := [str "_ID", str "_CODE", str "_KEY"]

def endsWithAny (sufs : List Text) (c : Text) : Bool :=
  sufs.any (fun s => endsWithText s c)

/-- Exact column-name matches (`common = cols1 & cols2`). -/
def commonCands (t1 t2 : Text) (cols1 cols2 : List Text) : List JoinPath :=
  (List.dedup (cols1.filter (fun c => memText c cols2))).map (fun c =>
    ⟨.COMMON_COLUMN, t1, c, t2, c,
     if endsWithAny highConfSuffixes c then .HIGH else .MEDIUM⟩)

/-- The inner suffix loop shared by both naming-convention passes: for a
column `c` of the other table, prefixed by `tA` and suffixed by one of the
join suffixes, return the `(pk, c)` pairs the source appends, where `pk` is
the bare suffix when present in `tA`'s columns and otherwise `c` itself. -/
def scanFor (tA : Text) (colsA : List Text) (c : Text) : List (Text × Text) :=
  joinSuffixes.flatMap (fun suf =>
    if startsWithText tA c && endsWithText suf c then
      let g := dropUnderscores suf
      if memText g colsA || memText c colsA then
        [(if memText g colsA then g else c, c)]
      else []
    else [])

/-- First naming-convention pass (`for c2 in cols2: ...`), emitting
`table1.pk = table2.c2` predicates. -/
def namingCandsA (t1 t2 : Text) (cols1 cols2 : List Text) : List JoinPath :=
  (List.dedup cols2).flatMap (fun c2 =>
    (scanFor t1 cols1 c2).map (fun pr =>
      ⟨.NAMING_CONVENTION, t1, pr.1, t2, pr.2, .MEDIUM⟩))

/-- Second naming-convention pass (`for c1 in cols1: ...`), emitting
`table1.c1 = table2.pk` predicates. -/
def namingCandsB (t1 t2 : Text) (cols1 cols2 : List Text) : List JoinPath :=
  (List.dedup cols1).flatMap (fun c1 =>
    (scanFor t2 cols2 c1).map (fun pr =>
      ⟨.NAMING_CONVENTION, t1, pr.2, t2, pr.1, .MEDIUM⟩))

/-- The pure core of `_find_join_path`, given the fetched column lists. -/
def findJoinPathCols (t1 t2 : Text) (cols1 cols2 : List Text) : List JoinPath :=
  commonCands t1 t2 cols1 cols2 ++ namingCandsA t1 t2 cols1 cols2 ++
    namingCandsB t1 t2 cols1 cols2

/-- `cols.setdefault(r[0], []).append(r[1])` restricted to one table. -/
def collectCols (rows : List (Text × Text)) (t : Text) : List Text :=
  (rows.filter (fun r => decide (r.1 = t))).map (fun r => r.2)

/-- `_find_join_path` over the rows returned by the per-dialect column
query. -/
def findJoinPath (rows : List (Text × Text)) (t1 t2 : Text) : List JoinPath :=
  findJoinPathCols t1 t2 (collectCols rows t1) (collectCols rows t2)

/-- Swapping the two table roles in a candidate's predicate and table
fields. -/
def swapPath (p : JoinPath) : JoinPath :=
  ⟨p.kind, p.rightTable, p.rightCol, p.leftTable, p.leftCol, p.confidence⟩

theorem swapPath_invol (p : JoinPath) : swapPath (swapPath p) = p := rfl

theorem mem_commonCands {tA tB : Text} {cA cB : List Text} {p : JoinPath} :
    p ∈ commonCands tA tB cA cB ↔
      ∃ c, c ∈ cA ∧ c ∈ cB ∧
        p = ⟨.COMMON_COLUMN, tA, c, tB, c,
             if endsWithAny highConfSuffixes c then .HIGH else .MEDIUM⟩ := by
  simp only [commonCands, List.mem_map, List.mem_dedup, List.mem_filter, memText_iff]
  constructor
  · rintro ⟨c, ⟨h1, h2⟩, rfl⟩
    exact ⟨c, h1, h2, rfl⟩
  · rintro ⟨c, h1, h2, rfl⟩
    exact ⟨c, ⟨h1, h2⟩, rfl⟩

theorem mem_namingCandsA {tA tB : Text} {cA cB : List Text} {p : JoinPath} :
    p ∈ namingCandsA tA tB cA cB ↔
      ∃ c pr, c ∈ cB ∧ pr ∈ scanFor tA cA c ∧
        p = ⟨.NAMING_CONVENTION, tA, Prod.fst pr, tB, Prod.snd pr, .MEDIUM⟩ := by
  simp only [namingCandsA, List.mem_flatMap, List.mem_dedup, List.mem_map]
  constructor
  · rintro ⟨c, hc, pr, hpr, rfl⟩
    exact ⟨c, pr, hc, hpr, rfl⟩
  · rintro ⟨c, pr, hc, hpr, rfl⟩
    exact ⟨c, hc, pr, hpr, rfl⟩

theorem mem_namingCandsB {tA tB : Text} {cA cB : List Text} {p : JoinPath} :
    p ∈ namingCandsB tA tB cA cB ↔
      ∃ c pr, c ∈ cA ∧ pr ∈ scanFor tB cB c ∧
        p = ⟨.NAMING_CONVENTION, tA, Prod.snd pr, tB, Prod.fst pr, .MEDIUM⟩ := by
  simp only [namingCandsB, List.mem_flatMap, List.mem_dedup, List.mem_map]
  constructor
  · rintro ⟨c, hc, pr, hpr, rfl⟩
    exact ⟨c, pr, hc, hpr, rfl⟩
  · rintro ⟨c, pr, hc, hpr, rfl⟩
    exact ⟨c, hc, pr, hpr, rfl⟩

/-- **C8.** The join-path candidate set is symmetric: a candidate is
produced for the ordered pair `(t1, t2)` exactly when its role-swapped
counterpart is produced for `(t2, t1)`, with the same kind and confidence
(swapping never touches those fields). -/
theorem c8_join_paths_symmetric (t1 t2 : Text) (cols1 cols2 : List Text) (p : JoinPath) :
    p ∈ findJoinPathCols t1 t2 cols1 cols2 ↔
      swapPath p ∈ findJoinPathCols t2 t1 cols2 cols1 := by
  unfold findJoinPathCols
  simp only [List.mem_append]
  constructor
  · rintro ((h | h) | h)
    · obtain ⟨c, h1, h2, rfl⟩ := mem_commonCands.mp h
      exact Or.inl (Or.inl (mem_commonCands.mpr ⟨c, h2, h1, rfl⟩))
    · obtain ⟨c, pr, hc, hpr, rfl⟩ := mem_namingCandsA.mp h
      exact Or.inr (mem_namingCandsB.mpr ⟨c, pr, hc, hpr, rfl⟩)
    · obtain ⟨c, pr, hc, hpr, rfl⟩ := mem_namingCandsB.mp h
      exact Or.inl (Or.inr (mem_namingCandsA.mpr ⟨c, pr, hc, hpr, rfl⟩))
  · rintro ((h | h) | h)
    · obtain ⟨c, h1, h2, hs⟩ := mem_commonCands.mp h
      have hp : p = swapPath (⟨.COMMON_COLUMN, t2, c, t1, c,
          if endsWithAny highConfSuffixes c then .HIGH else .MEDIUM⟩ : JoinPath) := by
        rw [← swapPath_invol p, hs]
      exact Or.inl (Or.inl (mem_commonCands.mpr ⟨c, h2, h1, hp⟩))
    · obtain ⟨c, pr, hc, hpr, hs⟩ := mem_namingCandsA.mp h
      have hp : p = swapPath (⟨.NAMING_CONVENTION, t2, Prod.fst pr, t1, Prod.snd pr,
          .MEDIUM⟩ : JoinPath) := by
        rw [← swapPath_invol p, hs]
      exact Or.inr (mem_namingCandsB.mpr ⟨c, pr, hc, hpr, hp⟩)
    · obtain ⟨c, pr, hc, hpr, hs⟩ := mem_namingCandsB.mp h
      have hp : p = swapPath (⟨.NAMING_CONVENTION, t2, Prod.snd pr, t1, Prod.fst pr,
          .MEDIUM⟩ : JoinPath) := by
        rw [← swapPath_invol p, hs]
      exact Or.inl (Or.inr (mem_namingCandsA.mpr ⟨c, pr, hc, hpr, hp⟩))

/-- Witness for C8 at a concrete shared high-confidence column. -/
theorem c8_join_paths_symmetric_witness :
    (⟨JoinKind.COMMON_COLUMN, str "A", str "X_ID", str "B", str "X_ID",
       Confidence.HIGH⟩ : JoinPath) ∈
        findJoinPathCols (str "A") (str "B") [str "X_ID"] [str "X_ID"] ↔
      swapPath ⟨JoinKind.COMMON_COLUMN, str "A", str "X_ID", str "B", str "X_ID",
        Confidence.HIGH⟩ ∈
        findJoinPathCols (str "B") (str "A") [str "X_ID"] [str "X_ID"] :=
  c8_join_paths_symmetric (str "A") (str "B") [str "X_ID"] [str "X_ID"] _

/-!
## C10: dialect resolution (`db_connector.get_db_type`)

The environment is modelled as a lookup from variable names to optional
values; `get_db_type` reads `{alias}_TYPE`, lowercases and strips it, falls
back to oracle for a blank value under the (case-insensitively) DWH alias,
and otherwise accepts exactly the four known type names.
-/

def dialectTypeNames : List Text :=
  [str "oracle", str "mysql", str "postgresql", str "sqlserver"]

/-- `os.environ.get(f"{db_alias}_TYPE", "").lower().strip()`. -/
def normalizedType (lookup : Text → Option Text) (dbAlias : Text) : Text :=
  stripT (toLowerT ((lookup (dbAlias ++ str "_TYPE")).getD []))

/-- `db_connector.get_db_type`. -/
def getDbType (lookup : Text → Option Text) (dbAlias : Text) : Except Err Text :=
  let dbType := normalizedType lookup dbAlias
  if dbType.isEmpty then
    if toUpperT dbAlias = str "DWH" then .ok (str "oracle")
    else .error .valueError
  else if memText dbType dialectTypeNames then .ok dbType
  else .error .valueError

/-- **C10.** `get_db_type` errors exactly when the normalized configured
type is not one of the four supported names and the DWH-blank exception
does not apply; a blank type under a case-insensitive DWH alias silently
resolves to oracle, and a supported type name is returned as-is. -/
theorem c10_get_db_type (lookup : Text → Option Text) (dbAlias : Text) :
    ((∃ e, getDbType lookup dbAlias = .error e) ↔
      ¬(memText (normalizedType lookup dbAlias) dialectTypeNames = true) ∧
      ¬(normalizedType lookup dbAlias = [] ∧ toUpperT dbAlias = str "DWH")) ∧
    (normalizedType lookup dbAlias = [] → toUpperT dbAlias = str "DWH" →
      getDbType lookup dbAlias = .ok (str "oracle")) ∧
    (memText (normalizedType lookup dbAlias) dialectTypeNames = true →
      getDbType lookup dbAlias = .ok (normalizedType lookup dbAlias)) := by
  by_cases h0 : normalizedType lookup dbAlias = []
  · by_cases hD : toUpperT dbAlias = str "DWH"
    · have hres : getDbType lookup dbAlias = .ok (str "oracle") := by
        simp [getDbType, h0, hD]
      refine ⟨⟨?_, ?_⟩, fun _ _ => hres, ?_⟩
      · rintro ⟨e, he⟩
        rw [hres] at he
        exact absurd he (by simp)
      · rintro ⟨_, h2⟩
        exact absurd ⟨h0, hD⟩ h2
      · intro hmem
        rw [h0] at hmem
        exact absurd hmem (by decide)
    · have hres : getDbType lookup dbAlias = .error .valueError := by
        simp [getDbType, h0, hD]
      refine ⟨⟨?_, ?_⟩, fun _ hD' => absurd hD' hD, ?_⟩
      · intro _
        refine ⟨?_, ?_⟩
        · rw [h0]; decide
        · rintro ⟨_, h2⟩; exact hD h2
      · intro _
        exact ⟨.valueError, hres⟩
      · intro hmem
        rw [h0] at hmem
        exact absurd hmem (by decide)
  · by_cases hmem : memText (normalizedType lookup dbAlias) dialectTypeNames = true
    · have hres : getDbType lookup dbAlias = .ok (normalizedType lookup dbAlias) := by
        simp [getDbType, List.isEmpty_iff, h0, hmem]
      refine ⟨⟨?_, ?_⟩, fun h => absurd h h0, fun _ => hres⟩
      · rintro ⟨e, he⟩
        rw [hres] at he
        exact absurd he (by simp)
      · rintro ⟨h1, _⟩
        exact absurd hmem h1
    · have hres : getDbType lookup dbAlias = .error .valueError := by
        simp [getDbType, List.isEmpty_iff, h0, hmem]
      refine ⟨⟨?_, ?_⟩, fun h => absurd h h0, fun hm => absurd hm hmem⟩
      · intro _
        exact ⟨hmem, fun h => h0 h.1⟩
      · intro _
        exact ⟨.valueError, hres⟩

def envNone : Text → Option Text := fun _ => none

/-- Witness for C10: a missing type under alias `dwh` resolves to oracle, a
missing type under another alias errors, and a configured `" Oracle "`
normalizes and resolves. -/
theorem c10_get_db_type_witness :
    getDbType envNone (str "dwh") = Except.ok (str "oracle") ∧
    (∃ e, getDbType envNone (str "XYZ") = Except.error e) ∧
    getDbType (fun _ => some (str " Oracle ")) (str "ABC") = Except.ok (str "oracle") := by
  refine ⟨(c10_get_db_type envNone (str "dwh")).2.1 (by decide) (by decide),
    (c10_get_db_type envNone (str "XYZ")).1.mpr ⟨by decide, by decide⟩,
    (c10_get_db_type (fun _ => some (str " Oracle ")) (str "ABC")).2.2 (by decide)⟩

/-- Witness for C9 (amended): the per-occurrence count at a plan with no
scan marker, and the OK-freedom of the scenario record. -/
theorem c9_fts_per_occurrence_witness :
    List.countP isFtsKind (analyzeOraclePlan [str "HASH JOIN"]) =
      (ftsScan (joinNl [str "HASH JOIN"])).length ∧
    ((⟨Severity.WARNING, IssueKind.FULL_TABLE_SCAN, oracleFtsMsg (str "EMPLOYEES")⟩ : Issue).severity
        ≠ Severity.OK ∧
      (⟨Severity.WARNING, IssueKind.FULL_TABLE_SCAN, oracleFtsMsg (str "EMPLOYEES")⟩ : Issue).kind
        ≠ IssueKind.NO_ISSUES) :=
  ⟨c9_fts_per_occurrence.1 [str "HASH JOIN"],
   c9_fts_per_occurrence.2.2.2 _ (by decide)⟩
